import Mathlib

/-!
Verification of the client-side orchestration logic in the Tabby VS Code
extension (`clients/vscode/src/commands.ts`): the commit-message flow
(`generateCommitMessage`) and the deprecated authorization flow
(`openAuthPage`).

The embedding is shallow: strings are Lean `String`s (lists of characters),
the regex operations of the source are translated to explicit character-level
functions, `Promise.all` over per-chunk async lookups becomes an
`Except`-valued aggregation that rejects when any lookup rejects, and
`Array.prototype.sort` (required to be stable since ES2019) is modelled by
`List.mergeSort`.  Host and agent effects (progress reports, notifications,
browser opening, the agent's RPCs, quick-pick dialogs) are recorded as
explicit event lists so that claims about which effects occur on which path
can be stated and proved.
-/

namespace Tabby

/-! ## Diff splitting: `diff.split(/\n(?=diff)/)`

JavaScript `String.prototype.split` with the separator regex `/\n(?=diff)/`
cuts the string at every newline that is immediately followed by the four
characters `diff`; the lookahead is zero-width, so the `diff` stays with the
following chunk, but the matched `\n` itself is removed from the output.
`split` always returns at least one element (for a separator-free input the
result is the one-element array holding the whole string). -/

/-- The four characters `diff` of the lookahead `(?=diff)`. -/
def diffMarker : List Char := ['d', 'i', 'f', 'f']

/-- Character-level worker for `diff.split(/\n(?=diff)/)`: `acc` is the
chunk being accumulated.  At a `'\n'` that is immediately followed by
`diff`, the current chunk is emitted and the newline is dropped (the
separator is consumed, the lookahead is not). -/
def splitDiffAux : List Char → List Char → List (List Char)
  | [], acc => [acc]
  | c :: rest, acc =>
    if c = '\n' ∧ diffMarker.isPrefixOf rest then
      acc :: splitDiffAux rest []
    else
      splitDiffAux rest (acc ++ [c])

/-- `diff.split(/\n(?=diff)/)` from `generateCommitMessage`. -/
def splitDiff (s : String) : List String :=
  (splitDiffAux s.data []).map String.mk

/-- Plain concatenation of chunks in order (the operation the original
claim applies to the split result). -/
def concatChunks (l : List String) : String :=
  l.foldl (fun a b => a ++ b) ""

/-- Character-level join with a single `'\n'` between consecutive chunks. -/
def joinChunksL : List (List Char) → List Char
  | [] => []
  | [c] => c
  | c :: c2 :: cs => c ++ '\n' :: joinChunksL (c2 :: cs)

/-- Join a list of chunks with a single newline between consecutive chunks
(reinserting the separator consumed by the split). -/
def joinChunks : List String → String
  | [] => ""
  | [c] => c
  | c :: c2 :: cs => c ++ "\n" ++ joinChunks (c2 :: cs)

/-- Whether the string contains any split point of `/\n(?=diff)/`, i.e. a
newline immediately followed by `diff`. -/
def hasBoundaryL : List Char → Bool
  | [] => false
  | c :: rest =>
    if c = '\n' ∧ diffMarker.isPrefixOf rest then true else hasBoundaryL rest

/-! ## File-path extraction: `/diff --git a\/.* b\/(.*)$/gm.exec(item)?.[1]`

With the `m` flag, `$` matches at the end of each line, and `.` does not
match a newline, so no match spans a line boundary.  `exec` returns the
leftmost match: the first line on which, after the first occurrence of
`diff --git a/`, the rest of the line still contains ` b/`.  Both `.*`s are
greedy, so the ` b/` used is the last occurrence in that line, and the
capture group is everything from there to the end of the line. -/

/-- The literal part `diff --git a/` of the path-extraction regex. -/
def gitHeaderPat : List Char := "diff --git a/".data

/-- The literal part ` b/` of the path-extraction regex. -/
def bSlashPat : List Char := " b/".data

/-- All suffixes of `s` that start immediately after an occurrence of the
(nonempty) pattern `pat`, listed in left-to-right order of the occurrence. -/
def tailsAfter (pat : List Char) : List Char → List (List Char)
  | [] => []
  | c :: rest =>
    if pat.isPrefixOf (c :: rest) then
      (c :: rest).drop pat.length :: tailsAfter pat rest
    else
      tailsAfter pat rest

/-- Split a character list into its lines (separator `'\n'` removed). -/
def splitLines : List Char → List (List Char)
  | [] => [[]]
  | c :: rest =>
    if c = '\n' then
      [] :: splitLines rest
    else
      match splitLines rest with
      | [] => [[c]]
      | l :: ls => (c :: l) :: ls

/-- The regex match on one line: after the first `diff --git a/` the greedy
`.*` forces ` b/` to match at its last occurrence in the rest of the line;
the capture `(.*)$` is everything after it up to the line end. -/
def extractPathFromLine (line : List Char) : Option (List Char) :=
  match (tailsAfter gitHeaderPat line).head? with
  | none => none
  | some rest => (tailsAfter bSlashPat rest).getLast?

/-- `/diff --git a\/.* b\/(.*)$/gm.exec(item)?.[1]`: the capture of the
leftmost match, i.e. of the first line that has a match. -/
def extractPath (s : String) : Option String :=
  ((splitLines s.data).findSome? extractPathFromLine).map String.mk

/-! ## Per-chunk priority lookup and `Promise.all`

For each chunk the source sets `priority = Number.MAX_SAFE_INTEGER`, then, if
a file path was extracted, overwrites it with
`(await workspace.fs.stat(uri)).mtime`.  A rejected `stat` makes that chunk's
async function reject, and `Promise.all` then rejects as a whole; only a
chunk whose path cannot be extracted keeps the sentinel. -/

/-- An exception value; JavaScript errors are distinguished in the source
only by their `name` (`error.name === "AbortError"`). -/
structure JsError where
  name : String
deriving DecidableEq

/-- `Number.MAX_SAFE_INTEGER` (all real `mtime` values lie strictly below). -/
def maxSafeInteger : Nat := 2 ^ 53 - 1

/-- One element of `diffsWithPriority`: a chunk string and its priority. -/
structure DiffWithPriority where
  diff : String
  priority : Nat
deriving DecidableEq

/-- A Git repository as the flow observes it: its root path, its staged
(`diff(true)`) and unstaged (`diff(false)`) diffs, and the filesystem's
`stat`, returning the `mtime` or `none` when `stat` rejects. -/
structure RepoModel where
  rootPath : String
  stagedDiff : String
  unstagedDiff : String
  stat : String → Option Nat

/-- `Uri.joinPath(repo.rootUri, filepath)`. -/
def joinPath (root filepath : String) : String :=
  root ++ "/" ++ filepath

/-- The async arrow in `diff.split(...).map(async (item) => ...)`:
`if (filepath)` is a JavaScript truthiness test, so a failed match
(`undefined`) and an empty capture (`""`, a header line ending in ` b/`)
both skip the `stat` call and keep the sentinel priority; a nonempty
extracted path is statted, a resolved `stat` supplies the `mtime` as the
priority, and a rejected `stat` rejects the chunk's async function. -/
def chunkPriority (repo : RepoModel) (item : String) : Except JsError DiffWithPriority :=
  match extractPath item with
  | none => Except.ok ⟨item, maxSafeInteger⟩
  | some filepath =>
    if filepath = "" then Except.ok ⟨item, maxSafeInteger⟩
    else
      match repo.stat (joinPath repo.rootPath filepath) with
      | some mtime => Except.ok ⟨item, mtime⟩
      | none => Except.error ⟨"FileSystemError"⟩

/-- `Promise.all`: resolves with all values in input order, rejects if any
input promise rejects. -/
def promiseAll : List (Except JsError α) → Except JsError (List α)
  | [] => Except.ok []
  | x :: xs =>
    match x with
    | Except.error e => Except.error e
    | Except.ok v =>
      match promiseAll xs with
      | Except.error e => Except.error e
      | Except.ok vs => Except.ok (v :: vs)

/-- `await Promise.all(diff.split(...).map(async (item) => ...))`. -/
def diffsWithPriority (repo : RepoModel) (chunks : List String) :
    Except JsError (List DiffWithPriority) :=
  promiseAll (chunks.map (chunkPriority repo))

/-- The comparator `(a, b) => a.priority - b.priority` as a Boolean order
(the comparator is consistent, so the ES2019-stable `Array.prototype.sort`
result is the stable ascending sort by priority). -/
def priorityLE (a b : DiffWithPriority) : Bool :=
  a.priority ≤ b.priority

/-- `diffsWithPriority.sort((a, b) => a.priority - b.priority)`, modelled by
stable merge sort. -/
def sortByPriority (l : List DiffWithPriority) : List DiffWithPriority :=
  l.mergeSort priorityLE

/-! ## Repository selection

With several repositories the source shows a quick pick whose items carry
`label = path.basename(repoRoot)` and `detail = repoRoot`, sorted by a
comparator that answers `1` when `a.detail.startsWith(b.detail)`, `-1` when
`b.detail.startsWith(a.detail)`, and `a.label.localeCompare(b.label)`
otherwise.  `Array.prototype.sort` is stable (ES2019) and is modelled by
stable merge sort; the comparator is not consistent (prefix pairs and
name-compared pairs can disagree), so the host order on such inputs is
implementation-defined, but the counterexample below produces the same
violating order under V8's actual binary insertion sort as under merge
sort. -/

/-- Node's `path.basename` for POSIX paths: trailing separators ignored,
then the portion after the last separator. -/
def basename (p : String) : String :=
  let rev := p.data.reverse.dropWhile (fun c => c = '/')
  if rev.isEmpty then
    if p.data.isEmpty then "" else "/"
  else
    String.mk ((rev.takeWhile (fun c => c ≠ '/')).reverse)

/-- Strict lexicographic order on character lists by code point. -/
def lexLt : List Char → List Char → Bool
  | [], [] => false
  | [], _ :: _ => true
  | _ :: _, [] => false
  | a :: as, b :: bs =>
    if a.toNat < b.toNat then true
    else if b.toNat < a.toNat then false
    else lexLt as bs

/-- `String.prototype.localeCompare`, modelled for the default locale on the
plain-ASCII labels considered here as code-point lexicographic comparison. -/
def localeCompare (a b : String) : Int :=
  if lexLt a.data b.data then -1 else if lexLt b.data a.data then 1 else 0

/-- `a.startsWith(b)` on strings (code-unit prefix test). -/
def strStartsWith (a b : String) : Bool :=
  b.data.isPrefixOf a.data

/-- One quick-pick item: `label = path.basename(repoRoot)`,
`detail = repoRoot`; `value` stands in for the repository object, as the
index of the repository in the host's repository list. -/
structure RepoPickItem where
  label : String
  detail : String
  value : Nat
deriving DecidableEq

/-- The quick-pick comparator from the source. -/
def repoCompare (a b : RepoPickItem) : Int :=
  if strStartsWith a.detail b.detail then 1
  else if strStartsWith b.detail a.detail then -1
  else localeCompare a.label b.label

/-- The comparator as the Boolean order used by the stable-sort model. -/
def repoLE (a b : RepoPickItem) : Bool :=
  repoCompare a b ≤ 0

/-- The sorted quick-pick item list built from the host's repositories. -/
def repoPickItems (repos : List RepoModel) : List RepoPickItem :=
  ((repos.enum).map (fun p => ⟨basename p.2.rootPath, p.2.rootPath, p.1⟩)).mergeSort repoLE

/-! ## Diff acquisition: `(await repo.diff(true)).trim()` and fallback -/

/-- ECMAScript whitespace as far as `trim` is concerned, restricted to the
characters that can occur in a git diff: space, tab, newline, carriage
return, vertical tab, form feed. -/
def isJsWhitespace (c : Char) : Bool :=
  c = ' ' ∨ c = '\t' ∨ c = '\n' ∨ c = '\r' ∨ c = '\x0b' ∨ c = '\x0c'

/-- `String.prototype.trim`: strip leading and trailing whitespace. -/
def jsTrim (s : String) : String :=
  String.mk (((s.data.dropWhile isJsWhitespace).reverse.dropWhile isJsWhitespace).reverse)

/-- The diff the flow goes on with: the trimmed staged diff, the trimmed
unstaged diff when the former is empty, `none` when both are empty
(`diff.length < 1` tests mirror the source). -/
def chooseDiff (repo : RepoModel) : Option String :=
  let diff := jsTrim repo.stagedDiff
  if diff.length < 1 then
    let diff2 := jsTrim repo.unstagedDiff
    if diff2.length < 1 then none else some diff2
  else some diff

/-! ## The commit-message flow -/

/-- The observable effects of one run of the commit-message command. -/
inductive CMEvent
  | showNoRepoMessage
  | showQuickPick (items : List RepoPickItem)
  | focusScm
  | agentGenerateCommitMessage (diffs : List String)
  | setInputBox (message : String)
deriving DecidableEq

/-- Whether the event is the agent's `generateCommitMessage` call. -/
def CMEvent.isAgentCall : CMEvent → Bool
  | CMEvent.agentGenerateCommitMessage _ => true
  | _ => false

/-- Whether the event writes the repository's commit-input field. -/
def CMEvent.isSetInput : CMEvent → Bool
  | CMEvent.setInputBox _ => true
  | _ => false

/-- One run of `tabby.experimental.chat.generateCommitMessage`.  `pick` is
the user's quick-pick choice as an index into the sorted item list (`none`
when the picker is dismissed); `agentResult` is how the agent's
`generateCommitMessage` call resolves.  The result is the emitted event list
and the error the run's promise rejects with, if any. -/
def generateCommitMessageRun (repos : List RepoModel) (pick : Option Nat)
    (agentResult : Except JsError String) : List CMEvent × Option JsError :=
  if repos.length < 1 then
    ([CMEvent.showNoRepoMessage], none)
  else
    let sel : Option RepoModel × List CMEvent :=
      if repos.length == 1 then
        (repos.head?, [])
      else
        let items := repoPickItems repos
        (pick.bind (fun i => (items.get? i).bind (fun item => repos.get? item.value)),
         [CMEvent.showQuickPick items])
    match sel.1 with
    | none => (sel.2, none)
    | some repo =>
      match chooseDiff repo with
      | none => (sel.2, none)
      | some diff =>
        let evs1 := sel.2 ++ [CMEvent.focusScm]
        match diffsWithPriority repo (splitDiff diff) with
        | Except.error e => (evs1, some e)
        | Except.ok dwp =>
          let diffs := (sortByPriority dwp).map (fun x => x.diff)
          let evs2 := evs1 ++ [CMEvent.agentGenerateCommitMessage diffs]
          match agentResult with
          | Except.error e => (evs2, some e)
          | Except.ok message => (evs2 ++ [CMEvent.setInputBox message], none)

/-! ## The authorization flow (`openAuthPage`)

The async body of `window.withProgress` is a `try`/`catch`/`finally`:
`onAuthStart` is the first statement of the `try`, `onAuthEnd` runs in the
`finally`; the `catch` returns silently when `error.name === "AbortError"`
(the abort signal fired at an await point) and otherwise shows the
authorization-failed notification.  The agent's responses and statuses are
the environment of one invocation.  The hooks of the optional `callbacks`
argument are modelled as supplied; the call sites of `onAuthStart` /
`onAuthEnd` emit the corresponding events. -/

/-- The agent's `requestAuthUrl` resolution value. -/
structure AuthUrlResponse where
  authUrl : String
  code : String
deriving DecidableEq

/-- The environment of one `openAuthPage` invocation: how the agent's two
awaited calls resolve, and the status the agent reports at each of the two
`getStatus()` call sites.  A call that the fired abort signal interrupts is
an `Except.error` whose `name` is `"AbortError"`. -/
structure AuthEnv where
  requestAuthUrl : Except JsError (Option AuthUrlResponse)
  waitForAuthToken : Except JsError Unit
  statusAfterToken : String
  statusWhenNoUrl : String

/-- The observable effects of one run of the authorization flow. -/
inductive AuthEvent
  | authStart
  | progress (msg : String)
  | openExternal (url : String)
  | waitForToken (code : String)
  | notifyAuthSuccess
  | notifyAlreadyAuthorized
  | notifyAuthFailed
  | authEnd
deriving DecidableEq

/-- Whether the event is a user-visible notification (progress reports are
not notifications). -/
def AuthEvent.isNotification : AuthEvent → Bool
  | AuthEvent.notifyAuthSuccess => true
  | AuthEvent.notifyAlreadyAuthorized => true
  | AuthEvent.notifyAuthFailed => true
  | _ => false

/-- The terminal outcome of one invocation, in the spec's state-machine
vocabulary: `alreadyAuthorized` is the `Succeeded`-without-browser outcome
reported as "already authorized", `cancelled` is the silent return taken
when the caught error's name is `"AbortError"`. -/
inductive AuthOutcome
  | succeeded
  | alreadyAuthorized
  | failed
  | cancelled
deriving DecidableEq

/-- The `try` block of `openAuthPage`: the events it emits, and either the
outcome it completes with or the error it throws.  A false
`assert(agent().getStatus() === "ready")` throws an `AssertionError`. -/
def authTryBody (env : AuthEnv) : List AuthEvent × Except JsError AuthOutcome :=
  let evs := [AuthEvent.authStart, AuthEvent.progress "Generating authorization url..."]
  match env.requestAuthUrl with
  | Except.error e => (evs, Except.error e)
  | Except.ok (some authUrl) =>
    let evs := evs ++ [AuthEvent.openExternal authUrl.authUrl,
                       AuthEvent.progress "Waiting for authorization from browser...",
                       AuthEvent.waitForToken authUrl.code]
    match env.waitForAuthToken with
    | Except.error e => (evs, Except.error e)
    | Except.ok _ =>
      if env.statusAfterToken = "ready" then
        (evs ++ [AuthEvent.notifyAuthSuccess], Except.ok AuthOutcome.succeeded)
      else
        (evs, Except.error ⟨"AssertionError"⟩)
  | Except.ok none =>
    if env.statusWhenNoUrl = "ready" then
      (evs ++ [AuthEvent.notifyAlreadyAuthorized], Except.ok AuthOutcome.alreadyAuthorized)
    else
      (evs ++ [AuthEvent.notifyAuthFailed], Except.ok AuthOutcome.failed)

/-- One run of `tabby.openAuthPage`: the `try` block, then the `catch`
(silent return on `"AbortError"`, failure notification otherwise) and the
`finally` (the `onAuthEnd` hook). -/
def openAuthPage (env : AuthEnv) : AuthOutcome × List AuthEvent :=
  match authTryBody env with
  | (evs, Except.ok outcome) => (outcome, evs ++ [AuthEvent.authEnd])
  | (evs, Except.error e) =>
    if e.name = "AbortError" then
      (AuthOutcome.cancelled, evs ++ [AuthEvent.authEnd])
    else
      (AuthOutcome.failed, evs ++ [AuthEvent.notifyAuthFailed, AuthEvent.authEnd])

/-! ## Concrete fixtures used by counterexamples and witnesses -/

/-- A two-file diff whose second file's path extracts fine. -/
def demoTwoFileDiff : String :=
  "diff --git a/x b/x\n+1\ndiff --git a/y b/y\n+2"

/-- A repository whose filesystem can stat `x` but not `y` (e.g. `y` was
deleted, so its diff still names `b/y` while `stat` rejects). -/
def demoStatRepo : RepoModel :=
  ⟨"/r", "", "", fun p => if p = "/r/x" then some 5 else none⟩

/-- Four repositories whose roots exercise the quick-pick comparator's
inconsistency: `/z` is a prefix of `/z/a`, while `/m` and `/q` relate to
both only through their labels. -/
def demoRepos : List RepoModel :=
  [⟨"/z/a", "", "", fun _ => none⟩,
   ⟨"/q", "", "", fun _ => none⟩,
   ⟨"/m", "", "", fun _ => none⟩,
   ⟨"/z", "", "", fun _ => none⟩]

/-- Every repository root that is a strict prefix of another root comes
earlier in the presented quick-pick item order. -/
def parentBeforeChild (items : List RepoPickItem) : Prop :=
  ∀ i j : Fin items.length,
    strStartsWith (items.get j).detail (items.get i).detail = true →
    (items.get i).detail ≠ (items.get j).detail →
    i.val < j.val

/-- The spec's end-to-end example: a repository rooted at `/repo`. -/
def demoParentRepo : RepoModel := ⟨"/repo", "", "", fun _ => none⟩

/-- The spec's end-to-end example: a repository rooted at `/repo/sub`. -/
def demoChildRepo : RepoModel := ⟨"/repo/sub", "", "", fun _ => none⟩

/-- A repository rooted at `/a`, prefix-unrelated to `/b`. -/
def demoARepo : RepoModel := ⟨"/a", "", "", fun _ => none⟩

/-- A repository rooted at `/b`, prefix-unrelated to `/a`. -/
def demoBRepo : RepoModel := ⟨"/b", "", "", fun _ => none⟩

/-- An environment in which the abort signal fires during `requestAuthUrl`. -/
def demoAbortEnv : AuthEnv :=
  ⟨Except.error ⟨"AbortError"⟩, Except.ok (), "ready", "ready"⟩

/-- An environment in which the agent issues no URL and is already ready. -/
def demoNoUrlEnv : AuthEnv :=
  ⟨Except.ok none, Except.ok (), "ready", "ready"⟩

/-- A repository with a whitespace-only staged diff and a whitespace-only
unstaged diff. -/
def demoWsRepo : RepoModel :=
  ⟨"/r", " \n\t", " ", fun _ => none⟩

end Tabby

namespace Tabby

/-! ## Lemmas about the split -/

theorem splitDiffAux_ne_nil (cs acc : List Char) : splitDiffAux cs acc ≠ [] := by
  induction cs generalizing acc with
  | nil => simp [splitDiffAux]
  | cons c rest ih =>
    unfold splitDiffAux
    split
    · simp
    · exact ih (acc ++ [c])

theorem joinChunksL_cons_of_ne_nil (a : List Char) {l : List (List Char)}
    (h : l ≠ []) : joinChunksL (a :: l) = a ++ '\n' :: joinChunksL l := by
  match l, h with
  | c2 :: cs, _ => rfl

theorem joinChunksL_splitDiffAux (cs acc : List Char) :
    joinChunksL (splitDiffAux cs acc) = acc ++ cs := by
  induction cs generalizing acc with
  | nil => simp [splitDiffAux, joinChunksL]
  | cons c rest ih =>
    unfold splitDiffAux
    split
    · rename_i h
      rw [joinChunksL_cons_of_ne_nil acc (splitDiffAux_ne_nil rest [])]
      rw [ih []]
      simp [h.1]
    · rw [ih (acc ++ [c])]
      simp

theorem joinChunks_map_mk (l : List (List Char)) :
    joinChunks (l.map String.mk) = String.mk (joinChunksL l) := by
  induction l with
  | nil => rfl
  | cons c cs ih =>
    cases cs with
    | nil => rfl
    | cons c2 cs2 =>
      show String.mk c ++ "\n" ++ joinChunks ((c2 :: cs2).map String.mk) = _
      rw [ih]
      apply String.ext
      simp [joinChunksL]

theorem splitDiffAux_of_no_boundary (cs : List Char) (acc : List Char)
    (h : hasBoundaryL cs = false) : splitDiffAux cs acc = [acc ++ cs] := by
  induction cs generalizing acc with
  | nil => simp [splitDiffAux]
  | cons c rest ih =>
    unfold splitDiffAux
    unfold hasBoundaryL at h
    split
    · rename_i hc
      simp [hc] at h
    · rename_i hc
      rw [if_neg hc] at h
      rw [ih (acc ++ [c]) h]
      simp

end Tabby

namespace Tabby

/-! ## C1: split/concatenate round trip -/

/-- C1 counterexample: the split on `/\n(?=diff)/` consumes the newline
separator, so concatenating the chunks of this two-file diff in original
order drops the newline between the files and does not reconstruct it. -/
theorem c1_counterexample :
    splitDiff demoTwoFileDiff =
      ["diff --git a/x b/x\n+1", "diff --git a/y b/y\n+2"] ∧
    concatChunks (splitDiff demoTwoFileDiff) ≠ demoTwoFileDiff := by
  constructor
  · decide
  · decide

/-- C1 (amended): for every diff string `D`, splitting `D` on the
file-boundary markers and joining the chunks in original split order with a
single newline between consecutive chunks (the separator the split
consumed) reconstructs `D` exactly; no other content is dropped or
duplicated. -/
theorem c1_join_reconstructs (D : String) : joinChunks (splitDiff D) = D := by
  unfold splitDiff
  rw [joinChunks_map_mk, joinChunksL_splitDiffAux]
  simp

/-! ## C8: a diff without file boundaries -/

/-- C8 counterexample: a trivial non-empty diff with no file-boundary
marker splits into the one-element sequence holding the whole string, not
into the empty sequence (`String.prototype.split` never returns an empty
array). -/
theorem c8_counterexample :
    hasBoundaryL ("hello" : String).data = false ∧
    splitDiff "hello" ≠ [] ∧
    splitDiff "hello" = ["hello"] := by
  refine ⟨by decide, by decide, by decide⟩

/-- C8 (amended): a diff with zero file-boundary markers yields the
one-element chunk sequence holding the entire diff; when additionally no
file path can be extracted from it, the prioritization resolves without
error, assigning the sentinel priority, and the prioritized sequence is
that same single chunk. -/
theorem c8_amended (s : String) (repo : RepoModel)
    (hb : hasBoundaryL s.data = false) (hp : extractPath s = none) :
    splitDiff s = [s] ∧
    diffsWithPriority repo (splitDiff s) = Except.ok [⟨s, maxSafeInteger⟩] ∧
    (sortByPriority [⟨s, maxSafeInteger⟩]).map (fun x => x.diff) = [s] := by
  have h1 : splitDiff s = [s] := by
    unfold splitDiff
    rw [splitDiffAux_of_no_boundary s.data [] hb]
    rfl
  refine ⟨h1, ?_, ?_⟩
  · rw [h1]
    show promiseAll [chunkPriority repo s] = _
    rw [show chunkPriority repo s = Except.ok ⟨s, maxSafeInteger⟩ from by
      unfold chunkPriority; rw [hp]]
    rfl
  · unfold sortByPriority
    simp

/-- C8 witness: the amended statement at the trivial diff `"hello"`. -/
theorem c8_amended_witness :
    hasBoundaryL ("hello" : String).data = false ∧
    extractPath "hello" = none ∧
    (splitDiff "hello" = ["hello"] ∧
     diffsWithPriority demoStatRepo (splitDiff "hello") =
       Except.ok [⟨"hello", maxSafeInteger⟩] ∧
     (sortByPriority [⟨"hello", maxSafeInteger⟩]).map (fun x => x.diff) = ["hello"]) :=
  ⟨by decide, by decide, c8_amended "hello" demoStatRepo (by decide) (by decide)⟩

end Tabby

namespace Tabby

/-! ## C2: independence of the per-chunk lookups -/

theorem chunkPriority_eq_of_some (repo : RepoModel) (c p : String)
    (hp : extractPath c = some p) (hne : p ≠ "") :
    chunkPriority repo c =
      match repo.stat (joinPath repo.rootPath p) with
      | some mtime => Except.ok ⟨c, mtime⟩
      | none => Except.error ⟨"FileSystemError"⟩ := by
  unfold chunkPriority
  simp only [hp]
  rw [if_neg hne]

theorem chunkPriority_eq_of_none (repo : RepoModel) (c : String)
    (hp : extractPath c = none) :
    chunkPriority repo c = Except.ok ⟨c, maxSafeInteger⟩ := by
  unfold chunkPriority
  rw [hp]

theorem chunkPriority_eq_of_empty (repo : RepoModel) (c : String)
    (hp : extractPath c = some "") :
    chunkPriority repo c = Except.ok ⟨c, maxSafeInteger⟩ := by
  unfold chunkPriority
  simp only [hp]
  rw [if_pos trivial]

theorem chunkPriority_error_eq (repo : RepoModel) (c : String) (e : JsError)
    (h : chunkPriority repo c = Except.error e) : e = ⟨"FileSystemError"⟩ := by
  rcases hp : extractPath c with _ | p
  · rw [chunkPriority_eq_of_none repo c hp] at h
    cases h
  · by_cases hpe : p = ""
    · subst hpe
      rw [chunkPriority_eq_of_empty repo c hp] at h
      cases h
    · rw [chunkPriority_eq_of_some repo c p hp hpe] at h
      rcases hs : repo.stat (joinPath repo.rootPath p) with _ | m
      · rw [hs] at h
        cases h
        rfl
      · rw [hs] at h
        cases h

theorem promiseAll_error_of_mem {α : Type} (l : List (Except JsError α)) (e : JsError)
    (hmem : Except.error e ∈ l)
    (hall : ∀ e2 : JsError, Except.error e2 ∈ l → e2 = e) :
    promiseAll l = Except.error e := by
  induction l with
  | nil => cases hmem
  | cons x xs ih =>
    unfold promiseAll
    cases x with
    | error e1 =>
      have : e1 = e := hall e1 (List.mem_cons_self _ _)
      rw [this]
    | ok v =>
      have hmem2 : Except.error e ∈ xs := by
        rcases List.mem_cons.mp hmem with h | h
        · cases h
        · exact h
      rw [ih hmem2 (fun e2 h2 => hall e2 (List.mem_cons_of_mem _ h2))]

/-- C2 counterexample: in this two-chunk diff both paths extract, the
repository can stat `x` but not `y`, and the failed stat of the second
chunk rejects the whole prioritization — the operation aborts instead of
assigning that chunk the lowest-priority sentinel. -/
theorem c2_counterexample :
    extractPath "diff --git a/y b/y\n+2" = some "y" ∧
    demoStatRepo.stat (joinPath demoStatRepo.rootPath "y") = none ∧
    diffsWithPriority demoStatRepo (splitDiff demoTwoFileDiff) =
      Except.error ⟨"FileSystemError"⟩ :=
  ⟨by decide, rfl, rfl⟩

/-- C2 (amended): the per-chunk lookups are independent only for failures
to obtain a usable path — a chunk whose header yields no path, or only the
empty capture (falsy in JavaScript, so `if (filepath)` skips the stat),
receives the lowest-priority sentinel without affecting the other chunks;
but a chunk whose extracted path is nonempty and whose stat lookup fails
rejects the combined `Promise.all`, aborting the whole prioritization
instead of receiving the sentinel. -/
theorem c2_amended (repo : RepoModel) (chunks : List String) (c p : String)
    (hc : c ∈ chunks) (hp : extractPath c = some p) (hpne : p ≠ "")
    (hs : repo.stat (joinPath repo.rootPath p) = none) :
    diffsWithPriority repo chunks = Except.error ⟨"FileSystemError"⟩ ∧
    (∀ d : String, extractPath d = none →
      chunkPriority repo d = Except.ok ⟨d, maxSafeInteger⟩) ∧
    (∀ d : String, extractPath d = some "" →
      chunkPriority repo d = Except.ok ⟨d, maxSafeInteger⟩) := by
  refine ⟨?_, ?_, ?_⟩
  · unfold diffsWithPriority
    apply promiseAll_error_of_mem
    · have : chunkPriority repo c = Except.error ⟨"FileSystemError"⟩ := by
        rw [chunkPriority_eq_of_some repo c p hp hpne, hs]
      rw [← this]
      exact List.mem_map_of_mem _ hc
    · intro e2 h2
      rcases List.mem_map.mp h2 with ⟨d, _, hd⟩
      exact chunkPriority_error_eq repo d e2 hd
  · intro d hd
    exact chunkPriority_eq_of_none repo d hd
  · intro d hd
    exact chunkPriority_eq_of_empty repo d hd

/-- C2 witness: the amended statement at the two-chunk diff whose second
file's path is nonempty but cannot be statted. -/
theorem c2_amended_witness :
    "diff --git a/y b/y\n+2" ∈ splitDiff demoTwoFileDiff ∧
    extractPath "diff --git a/y b/y\n+2" = some "y" ∧
    ("y" : String) ≠ "" ∧
    demoStatRepo.stat (joinPath demoStatRepo.rootPath "y") = none ∧
    (diffsWithPriority demoStatRepo (splitDiff demoTwoFileDiff) =
       Except.error ⟨"FileSystemError"⟩ ∧
     (∀ d : String, extractPath d = none →
       chunkPriority demoStatRepo d = Except.ok ⟨d, maxSafeInteger⟩) ∧
     (∀ d : String, extractPath d = some "" →
       chunkPriority demoStatRepo d = Except.ok ⟨d, maxSafeInteger⟩)) :=
  ⟨by decide, by decide, by decide, rfl,
   c2_amended demoStatRepo (splitDiff demoTwoFileDiff) "diff --git a/y b/y\n+2" "y"
     (by decide) (by decide) (by decide) rfl⟩

end Tabby

namespace Tabby

/-! ## C3: the prioritized output -/

theorem priorityLE_trans (a b c : DiffWithPriority) :
    priorityLE a b → priorityLE b c → priorityLE a c := by
  unfold priorityLE
  intro h1 h2
  simp only [decide_eq_true_eq] at h1 h2 ⊢
  omega

theorem priorityLE_total (a b : DiffWithPriority) :
    priorityLE a b || priorityLE b a := by
  unfold priorityLE
  rcases Nat.le_total a.priority b.priority with h | h <;> simp [h]

/-- C3: the prioritized output is the stable ascending sort of the input by
priority key: it is a permutation of the input chunks, it is sorted
ascending by priority, every sentinel-key chunk sorts at or after every
chunk with a resolved (strictly smaller) timestamp, and chunks with equal
keys keep their original relative order. -/
theorem c3_sort_correct (l : List DiffWithPriority)
    (hres : ∀ x ∈ l, x.priority ≤ maxSafeInteger) :
    (sortByPriority l).Perm l ∧
    (sortByPriority l).Pairwise (fun a b => a.priority ≤ b.priority) ∧
    (sortByPriority l).Pairwise
      (fun a b => a.priority = maxSafeInteger → b.priority = maxSafeInteger) ∧
    (∀ a b : DiffWithPriority, [a, b].Sublist l → a.priority = b.priority →
      [a, b].Sublist (sortByPriority l)) := by
  have hperm : (sortByPriority l).Perm l := List.mergeSort_perm l priorityLE
  have hsorted : (sortByPriority l).Pairwise (fun a b => priorityLE a b) :=
    List.sorted_mergeSort priorityLE_trans priorityLE_total l
  have hsorted2 : (sortByPriority l).Pairwise (fun a b => a.priority ≤ b.priority) := by
    apply hsorted.imp
    intro a b h
    simpa [priorityLE] using h
  refine ⟨hperm, hsorted2, ?_, ?_⟩
  · apply List.Pairwise.imp_of_mem ?_ hsorted2
    intro a b ha hb hle hmax
    have hb2 : b.priority ≤ maxSafeInteger := hres b (hperm.mem_iff.mp hb)
    omega
  · intro a b hsub heq
    apply List.pair_sublist_mergeSort priorityLE_trans priorityLE_total ?_ hsub
    simp [priorityLE, heq]

/-- C3 witness: the sort theorem at a three-chunk input with one sentinel
chunk and two equal resolved keys. -/
theorem c3_sort_correct_witness :
    (∀ x ∈ [(⟨"b", 5⟩ : DiffWithPriority), ⟨"a", 5⟩, ⟨"s", maxSafeInteger⟩],
       x.priority ≤ maxSafeInteger) ∧
    ((sortByPriority [⟨"b", 5⟩, ⟨"a", 5⟩, ⟨"s", maxSafeInteger⟩]).Perm
       [⟨"b", 5⟩, ⟨"a", 5⟩, ⟨"s", maxSafeInteger⟩] ∧
     (sortByPriority [⟨"b", 5⟩, ⟨"a", 5⟩, ⟨"s", maxSafeInteger⟩]).Pairwise
       (fun a b => a.priority ≤ b.priority) ∧
     (sortByPriority [⟨"b", 5⟩, ⟨"a", 5⟩, ⟨"s", maxSafeInteger⟩]).Pairwise
       (fun a b => a.priority = maxSafeInteger → b.priority = maxSafeInteger) ∧
     (∀ a b : DiffWithPriority,
       [a, b].Sublist [⟨"b", 5⟩, ⟨"a", 5⟩, ⟨"s", maxSafeInteger⟩] →
       a.priority = b.priority →
       [a, b].Sublist (sortByPriority [⟨"b", 5⟩, ⟨"a", 5⟩, ⟨"s", maxSafeInteger⟩]))) :=
  ⟨by decide, c3_sort_correct _ (by decide)⟩

end Tabby

namespace Tabby

/-! ## C4, C5, C7: the authorization flow -/

/-- C4: on every invocation of the authorization flow — whatever the
agent's responses and statuses, including cancellation and thrown errors —
the event trace starts with the `onAuthStart` hook, ends with the
`onAuthEnd` hook, and neither hook occurs anywhere else, so each hook fires
exactly once and the start hook fires strictly before the end hook. -/
theorem c4_hooks (env : AuthEnv) :
    ∃ mid : List AuthEvent,
      (openAuthPage env).2 = AuthEvent.authStart :: (mid ++ [AuthEvent.authEnd]) ∧
      AuthEvent.authStart ∉ mid ∧ AuthEvent.authEnd ∉ mid := by
  rcases env with ⟨req, wait, st1, st2⟩
  unfold openAuthPage authTryBody
  rcases req with e | u
  · by_cases he : e.name = "AbortError" <;> simp [he]
    · exact ⟨[AuthEvent.progress "Generating authorization url..."],
        rfl, by simp, by simp⟩
    · exact ⟨[AuthEvent.progress "Generating authorization url...",
              AuthEvent.notifyAuthFailed], rfl, by simp, by simp⟩
  · rcases u with _ | au
    · by_cases h2 : st2 = "ready" <;> simp [h2]
      · exact ⟨[AuthEvent.progress "Generating authorization url...",
                AuthEvent.notifyAlreadyAuthorized], rfl, by simp, by simp⟩
      · exact ⟨[AuthEvent.progress "Generating authorization url...",
                AuthEvent.notifyAuthFailed], rfl, by simp, by simp⟩
    · rcases wait with e | _
      · by_cases he : e.name = "AbortError" <;> simp [he]
        · exact ⟨[AuthEvent.progress "Generating authorization url...",
                  AuthEvent.openExternal au.authUrl,
                  AuthEvent.progress "Waiting for authorization from browser...",
                  AuthEvent.waitForToken au.code], rfl, by simp, by simp⟩
        · exact ⟨[AuthEvent.progress "Generating authorization url...",
                  AuthEvent.openExternal au.authUrl,
                  AuthEvent.progress "Waiting for authorization from browser...",
                  AuthEvent.waitForToken au.code,
                  AuthEvent.notifyAuthFailed], rfl, by simp, by simp⟩
      · by_cases h1 : st1 = "ready" <;> simp [h1]
        · exact ⟨[AuthEvent.progress "Generating authorization url...",
                  AuthEvent.openExternal au.authUrl,
                  AuthEvent.progress "Waiting for authorization from browser...",
                  AuthEvent.waitForToken au.code,
                  AuthEvent.notifyAuthSuccess], rfl, by simp, by simp⟩
        · exact ⟨[AuthEvent.progress "Generating authorization url...",
                  AuthEvent.openExternal au.authUrl,
                  AuthEvent.progress "Waiting for authorization from browser...",
                  AuthEvent.waitForToken au.code,
                  AuthEvent.notifyAuthFailed], rfl, by simp, by simp⟩

/-- C5: if the abort signal fires at an await point before token polling
resolves — the raised error's name is `"AbortError"`, whether during
`requestAuthUrl` or during `waitForAuthToken` — the flow terminates in the
`Cancelled` outcome, not `Failed`, and the trace contains no user-visible
notification of any kind. -/
theorem c5_cancellation (env : AuthEnv)
    (h : env.requestAuthUrl = Except.error ⟨"AbortError"⟩ ∨
         ∃ u : AuthUrlResponse, env.requestAuthUrl = Except.ok (some u) ∧
           env.waitForAuthToken = Except.error ⟨"AbortError"⟩) :
    (openAuthPage env).1 = AuthOutcome.cancelled ∧
    (openAuthPage env).1 ≠ AuthOutcome.failed ∧
    ∀ ev ∈ (openAuthPage env).2, ev.isNotification = false := by
  rcases env with ⟨req, wait, st1, st2⟩
  rcases h with h | ⟨u, h, hw⟩
  · have h2 : req = Except.error ⟨"AbortError"⟩ := h
    subst h2
    unfold openAuthPage authTryBody
    refine ⟨by simp, by simp, ?_⟩
    intro ev hev
    simp at hev
    rcases hev with h | h | h <;> subst h <;> rfl
  · have h2 : req = Except.ok (some u) := h
    have h3 : wait = Except.error ⟨"AbortError"⟩ := hw
    subst h2
    subst h3
    unfold openAuthPage authTryBody
    refine ⟨by simp, by simp, ?_⟩
    intro ev hev
    simp at hev
    rcases hev with h | h | h | h | h | h <;> subst h <;> rfl

/-- C5 witness: the cancellation statement for an invocation aborted during
`requestAuthUrl`. -/
theorem c5_cancellation_witness :
    (demoAbortEnv.requestAuthUrl = Except.error ⟨"AbortError"⟩ ∨
     ∃ u : AuthUrlResponse, demoAbortEnv.requestAuthUrl = Except.ok (some u) ∧
       demoAbortEnv.waitForAuthToken = Except.error ⟨"AbortError"⟩) ∧
    ((openAuthPage demoAbortEnv).1 = AuthOutcome.cancelled ∧
     (openAuthPage demoAbortEnv).1 ≠ AuthOutcome.failed ∧
     ∀ ev ∈ (openAuthPage demoAbortEnv).2, ev.isNotification = false) :=
  ⟨Or.inl rfl, c5_cancellation demoAbortEnv (Or.inl rfl)⟩

/-- C7: when the agent returns no authorization URL, an agent status of
`"ready"` means the flow ends in the distinct already-authorized success
outcome, with the already-authorized notification, without opening a
browser and without token polling; any other status means the flow ends in
the failed outcome, again without token polling. -/
theorem c7_no_url (env : AuthEnv) (h : env.requestAuthUrl = Except.ok none) :
    (env.statusWhenNoUrl = "ready" →
      (openAuthPage env).1 = AuthOutcome.alreadyAuthorized ∧
      AuthEvent.notifyAlreadyAuthorized ∈ (openAuthPage env).2 ∧
      (∀ u : String, AuthEvent.openExternal u ∉ (openAuthPage env).2) ∧
      (∀ c : String, AuthEvent.waitForToken c ∉ (openAuthPage env).2)) ∧
    (env.statusWhenNoUrl ≠ "ready" →
      (openAuthPage env).1 = AuthOutcome.failed ∧
      (∀ c : String, AuthEvent.waitForToken c ∉ (openAuthPage env).2)) := by
  rcases env with ⟨req, wait, st1, st2⟩
  simp only at h ⊢
  subst h
  unfold openAuthPage authTryBody
  constructor
  · intro h2
    simp [h2]
  · intro h2
    simp [h2]

/-- C7 witness: the no-URL statement for an already-authorized agent. -/
theorem c7_no_url_witness :
    demoNoUrlEnv.requestAuthUrl = Except.ok none ∧
    ((demoNoUrlEnv.statusWhenNoUrl = "ready" →
       (openAuthPage demoNoUrlEnv).1 = AuthOutcome.alreadyAuthorized ∧
       AuthEvent.notifyAlreadyAuthorized ∈ (openAuthPage demoNoUrlEnv).2 ∧
       (∀ u : String, AuthEvent.openExternal u ∉ (openAuthPage demoNoUrlEnv).2) ∧
       (∀ c : String, AuthEvent.waitForToken c ∉ (openAuthPage demoNoUrlEnv).2)) ∧
     (demoNoUrlEnv.statusWhenNoUrl ≠ "ready" →
       (openAuthPage demoNoUrlEnv).1 = AuthOutcome.failed ∧
       (∀ c : String, AuthEvent.waitForToken c ∉ (openAuthPage demoNoUrlEnv).2))) :=
  ⟨rfl, c7_no_url demoNoUrlEnv rfl⟩

end Tabby

namespace Tabby

/-! ## C6, C10: diff acquisition and the empty-diff early return -/

theorem length_lt_one_iff (s : String) : (s.length < 1) ↔ s = "" := by
  rw [Nat.lt_one_iff]
  constructor
  · intro h
    exact String.ext (List.length_eq_zero.mp h)
  · intro h
    subst h
    rfl

theorem jsTrim_eq_empty (s : String) (h : ∀ c ∈ s.data, isJsWhitespace c = true) :
    jsTrim s = "" := by
  unfold jsTrim
  rw [List.dropWhile_eq_nil_iff.mpr h]
  rfl

theorem chooseDiff_eq_none (r : RepoModel) (h1 : jsTrim r.stagedDiff = "")
    (h2 : jsTrim r.unstagedDiff = "") : chooseDiff r = none := by
  simp only [chooseDiff, h1, h2]
  rfl

theorem chooseDiff_eq_staged (r : RepoModel) (h : jsTrim r.stagedDiff ≠ "") :
    chooseDiff r = some (jsTrim r.stagedDiff) := by
  simp only [chooseDiff]
  rw [if_neg (fun hlt => h ((length_lt_one_iff _).mp hlt))]

/-- C6: when every known repository has an empty staged diff and an empty
unstaged diff, the commit-message operation emits no agent
`generateCommitMessage` call and never writes the commit-input field,
whichever repository is selected and however the picker is answered; and
in general the staged diff is used whenever it is non-empty (the unstaged
diff is only a fallback). -/
theorem c6_empty_diffs (repos : List RepoModel) (pick : Option Nat)
    (agentResult : Except JsError String)
    (h : ∀ r ∈ repos, jsTrim r.stagedDiff = "" ∧ jsTrim r.unstagedDiff = "") :
    (∀ ev ∈ (generateCommitMessageRun repos pick agentResult).1,
       ev.isAgentCall = false ∧ ev.isSetInput = false) ∧
    (∀ r : RepoModel, jsTrim r.stagedDiff ≠ "" →
       chooseDiff r = some (jsTrim r.stagedDiff)) := by
  refine ⟨?_, fun r hr => chooseDiff_eq_staged r hr⟩
  intro ev hev
  cases repos with
  | nil =>
    simp [generateCommitMessageRun] at hev
    subst hev
    exact ⟨rfl, rfl⟩
  | cons r rs =>
    cases rs with
    | nil =>
      have hnone : chooseDiff r = none :=
        chooseDiff_eq_none r (h r (by simp)).1 (h r (by simp)).2
      simp [generateCommitMessageRun, hnone] at hev
    | cons r2 rs2 =>
      have hlen1 : ¬((r :: r2 :: rs2).length < 1) := by simp
      have hlen2 : ((r :: r2 :: rs2).length == 1) = false := by simp
      rw [generateCommitMessageRun] at hev
      rw [if_neg hlen1] at hev
      simp only [hlen2, if_false, Bool.false_eq_true] at hev
      rcases hopt : Option.bind pick (fun i =>
          Option.bind ((repoPickItems (r :: r2 :: rs2)).get? i)
            (fun item => (r :: r2 :: rs2).get? item.value)) with _ | repo
      · rw [hopt] at hev
        simp at hev
        subst hev
        exact ⟨rfl, rfl⟩
      · have hmem : repo ∈ r :: r2 :: rs2 := by
          rcases Option.bind_eq_some.mp hopt with ⟨i, _, hi⟩
          rcases Option.bind_eq_some.mp hi with ⟨item, _, hitem⟩
          exact List.get?_mem hitem
        have hnone : chooseDiff repo = none :=
          chooseDiff_eq_none repo (h repo hmem).1 (h repo hmem).2
        rw [hopt] at hev
        simp only [hnone] at hev
        simp at hev
        subst hev
        exact ⟨rfl, rfl⟩

/-- C6 witness: a single repository with whitespace-only staged diff and
empty unstaged diff, and a second repository with a non-empty staged diff
exercising the staged-first conjunct. -/
theorem c6_empty_diffs_witness :
    (∀ r ∈ [demoWsRepo], jsTrim r.stagedDiff = "" ∧ jsTrim r.unstagedDiff = "") ∧
    ((∀ ev ∈ (generateCommitMessageRun [demoWsRepo] none (Except.ok "msg")).1,
        ev.isAgentCall = false ∧ ev.isSetInput = false) ∧
     (∀ r : RepoModel, jsTrim r.stagedDiff ≠ "" →
        chooseDiff r = some (jsTrim r.stagedDiff))) :=
  ⟨by decide, c6_empty_diffs [demoWsRepo] none (Except.ok "msg") (by decide)⟩

/-- C10: the emptiness test on diffs happens after `trim`: a staged diff of
only whitespace counts as empty and the flow falls back to the unstaged
diff, itself trimmed and tested the same way (`none` means the operation
ends before any splitting); and whichever diff is chosen is passed on
trimmed, not raw. -/
theorem c10_trim (repo : RepoModel)
    (hs : ∀ c ∈ repo.stagedDiff.data, isJsWhitespace c = true) :
    chooseDiff repo =
      (if jsTrim repo.unstagedDiff = "" then none
       else some (jsTrim repo.unstagedDiff)) ∧
    ((∀ c ∈ repo.unstagedDiff.data, isJsWhitespace c = true) →
       chooseDiff repo = none) ∧
    (∀ r : RepoModel, ∀ d : String, chooseDiff r = some d →
       d = jsTrim r.stagedDiff ∨ d = jsTrim r.unstagedDiff) := by
  have h1 : jsTrim repo.stagedDiff = "" := jsTrim_eq_empty _ hs
  refine ⟨?_, ?_, ?_⟩
  · simp only [chooseDiff, h1]
    by_cases h2 : jsTrim repo.unstagedDiff = ""
    · rw [if_pos h2]
      simp [h2]
    · rw [if_neg h2]
      rw [if_pos (by decide)]
      rw [if_neg (fun hlt => h2 ((length_lt_one_iff _).mp hlt))]
  · intro hu
    exact chooseDiff_eq_none repo h1 (jsTrim_eq_empty _ hu)
  · intro r d hd
    by_cases hst : jsTrim r.stagedDiff = ""
    · right
      simp only [chooseDiff, hst] at hd
      rw [if_pos (by decide)] at hd
      by_cases hun : jsTrim r.unstagedDiff = ""
      · rw [if_pos ((length_lt_one_iff _).mpr hun)] at hd
        cases hd
      · rw [if_neg (fun hlt => hun ((length_lt_one_iff _).mp hlt))] at hd
        cases hd
        rfl
    · left
      rw [chooseDiff_eq_staged r hst] at hd
      cases hd
      rfl

/-- C10 witness: the trim statement at a repository whose staged diff is
whitespace-only and whose unstaged diff is a single space. -/
theorem c10_trim_witness :
    (∀ c ∈ demoWsRepo.stagedDiff.data, isJsWhitespace c = true) ∧
    (chooseDiff demoWsRepo =
       (if jsTrim demoWsRepo.unstagedDiff = "" then none
        else some (jsTrim demoWsRepo.unstagedDiff)) ∧
     ((∀ c ∈ demoWsRepo.unstagedDiff.data, isJsWhitespace c = true) →
        chooseDiff demoWsRepo = none) ∧
     (∀ r : RepoModel, ∀ d : String, chooseDiff r = some d →
        d = jsTrim r.stagedDiff ∨ d = jsTrim r.unstagedDiff)) :=
  ⟨by decide, c10_trim demoWsRepo (by decide)⟩

end Tabby

namespace Tabby

/-! ## C9: repository selection order -/

theorem mergeSort_pair {α : Type} (le : α → α → Bool) (a b : α) :
    [a, b].mergeSort le = if le a b then [a, b] else [b, a] := by
  rw [List.mergeSort]
  simp [List.splitInTwo, List.splitAt_eq, List.merge]

theorem mergeSort_four {α : Type} (le : α → α → Bool) (a b c d : α) :
    [a, b, c, d].mergeSort le =
      List.merge ([a, b].mergeSort le) ([c, d].mergeSort le) le := by
  rw [List.mergeSort]
  simp [List.splitInTwo, List.splitAt_eq]

theorem mergeSort_four_eval {α : Type} (le : α → α → Bool) (a b c d : α)
    (h1 : le a b = true) (h2 : le c d = true) (h3 : le a c = true)
    (h4 : le b c = false) (h5 : le b d = true) :
    [a, b, c, d].mergeSort le = [a, c, b, d] := by
  rw [mergeSort_four, mergeSort_pair, mergeSort_pair, if_pos h1, if_pos h2]
  unfold List.merge
  rw [if_pos h3]
  unfold List.merge
  rw [if_neg (by simp [h4])]
  unfold List.merge
  rw [if_pos h5]
  simp

theorem isPrefixOf_antisymm : ∀ (l1 l2 : List Char),
    l1.isPrefixOf l2 = true → l2.isPrefixOf l1 = true → l1 = l2
  | [], [], _, _ => rfl
  | [], _ :: _, _, h2 => by simp [List.isPrefixOf] at h2
  | _ :: _, [], h1, _ => by simp [List.isPrefixOf] at h1
  | a :: as, b :: bs, h1, h2 => by
    rw [List.isPrefixOf_cons₂, Bool.and_eq_true, beq_iff_eq] at h1 h2
    rw [h1.1, isPrefixOf_antisymm as bs h1.2 h2.2]

theorem startsWith_asymm (p c : String) (h : strStartsWith c p = true)
    (hne : p ≠ c) : strStartsWith p c = false := by
  unfold strStartsWith at h ⊢
  by_contra hcon
  rw [Bool.not_eq_false] at hcon
  exact hne (String.ext (isPrefixOf_antisymm p.data c.data h hcon))

theorem lexLt_asymm (l1 l2 : List Char) (h : lexLt l1 l2 = true) :
    lexLt l2 l1 = false := by
  induction l1 generalizing l2 with
  | nil =>
    cases l2 with
    | nil => simp [lexLt] at h
    | cons b bs => simp [lexLt]
  | cons a as ih =>
    cases l2 with
    | nil => simp [lexLt] at h
    | cons b bs =>
      unfold lexLt at h ⊢
      by_cases h1 : a.toNat < b.toNat
      · rw [if_neg (by omega), if_pos h1]
      · rw [if_neg h1] at h
        by_cases h2 : b.toNat < a.toNat
        · rw [if_pos h2] at h
          cases h
        · rw [if_neg h2] at h
          rw [if_neg h2, if_neg h1]
          exact ih bs h

theorem localeCompare_pos_of_lt (a b : String) (h : lexLt a.data b.data = true) :
    localeCompare b a = 1 := by
  unfold localeCompare
  rw [if_neg (by simp [lexLt_asymm _ _ h]), if_pos h]

theorem localeCompare_lt_imp (a b : String) (h : localeCompare a b < 0) :
    lexLt a.data b.data = true := by
  unfold localeCompare at h
  by_cases h1 : lexLt a.data b.data = true
  · exact h1
  · rw [if_neg h1] at h
    by_cases h2 : lexLt b.data a.data = true
    · rw [if_pos h2] at h
      cases h
    · rw [if_neg h2] at h
      cases h

/-- C9 counterexample: with the four repositories rooted at `/z/a`, `/q`,
`/m` and `/z`, the presented selection orders the child `/z/a` first and its
parent `/z` last — the prefix-related pair `/z`, `/z/a` is never directly
compared (the interleaved labels decide instead), so the parent-before-child
ordering fails.  V8's actual sort (binary insertion for short arrays)
produces this same order. -/
theorem c9_counterexample :
    (repoPickItems demoRepos).map (fun it => it.detail) =
      ["/z/a", "/m", "/q", "/z"] ∧
    strStartsWith "/z/a" "/z" = true ∧ ("/z" : String) ≠ "/z/a" ∧
    ¬ parentBeforeChild (repoPickItems demoRepos) := by
  have h0 : (demoRepos.enum).map
      (fun p => (⟨basename p.2.rootPath, p.2.rootPath, p.1⟩ : RepoPickItem)) =
      [⟨"a", "/z/a", 0⟩, ⟨"q", "/q", 1⟩, ⟨"m", "/m", 2⟩, ⟨"z", "/z", 3⟩] := by
    decide
  have h : repoPickItems demoRepos =
      [⟨"a", "/z/a", 0⟩, ⟨"m", "/m", 2⟩, ⟨"q", "/q", 1⟩, ⟨"z", "/z", 3⟩] := by
    unfold repoPickItems
    rw [h0]
    exact mergeSort_four_eval repoLE _ _ _ _
      (by decide) (by decide) (by decide) (by decide) (by decide)
  rw [h]
  refine ⟨by decide, by decide, by decide, ?_⟩
  unfold parentBeforeChild
  decide

/-- C9 (amended): the comparator orders a prefix-related pair parent-first
and a prefix-unrelated pair by label whenever it actually compares the two
— in particular, in a two-repository selection the parent root always
appears before the child root, and two prefix-unrelated roots appear in
label order, whichever order the host lists them in; with three or more
repositories an interleaved repository can prevent the prefix-related pair
from ever being compared, so parent-before-child is not guaranteed in
general (see the counterexample). -/
theorem c9_amended_pairs :
    (∀ parent child : RepoModel,
       strStartsWith child.rootPath parent.rootPath = true →
       parent.rootPath ≠ child.rootPath →
       repoPickItems [parent, child] =
         [⟨basename parent.rootPath, parent.rootPath, 0⟩,
          ⟨basename child.rootPath, child.rootPath, 1⟩] ∧
       repoPickItems [child, parent] =
         [⟨basename parent.rootPath, parent.rootPath, 1⟩,
          ⟨basename child.rootPath, child.rootPath, 0⟩]) ∧
    (∀ r1 r2 : RepoModel,
       strStartsWith r1.rootPath r2.rootPath = false →
       strStartsWith r2.rootPath r1.rootPath = false →
       localeCompare (basename r1.rootPath) (basename r2.rootPath) < 0 →
       repoPickItems [r1, r2] =
         [⟨basename r1.rootPath, r1.rootPath, 0⟩,
          ⟨basename r2.rootPath, r2.rootPath, 1⟩] ∧
       repoPickItems [r2, r1] =
         [⟨basename r1.rootPath, r1.rootPath, 1⟩,
          ⟨basename r2.rootPath, r2.rootPath, 0⟩]) := by
  constructor
  · intro parent child hpre hne
    have hrev : strStartsWith parent.rootPath child.rootPath = false :=
      startsWith_asymm parent.rootPath child.rootPath hpre hne
    constructor
    · show ([(⟨basename parent.rootPath, parent.rootPath, 0⟩ : RepoPickItem),
             ⟨basename child.rootPath, child.rootPath, 1⟩]).mergeSort repoLE = _
      rw [mergeSort_pair]
      rw [if_pos (by simp [repoLE, repoCompare, hrev, hpre])]
    · show ([(⟨basename child.rootPath, child.rootPath, 0⟩ : RepoPickItem),
             ⟨basename parent.rootPath, parent.rootPath, 1⟩]).mergeSort repoLE = _
      rw [mergeSort_pair]
      rw [if_neg (by simp [repoLE, repoCompare, hpre])]
  · intro r1 r2 h12 h21 hlc
    have hlt : lexLt (basename r1.rootPath).data (basename r2.rootPath).data = true :=
      localeCompare_lt_imp _ _ hlc
    constructor
    · show ([(⟨basename r1.rootPath, r1.rootPath, 0⟩ : RepoPickItem),
             ⟨basename r2.rootPath, r2.rootPath, 1⟩]).mergeSort repoLE = _
      rw [mergeSort_pair]
      rw [if_pos (by simp [repoLE, repoCompare, h12, h21]; omega)]
    · show ([(⟨basename r2.rootPath, r2.rootPath, 0⟩ : RepoPickItem),
             ⟨basename r1.rootPath, r1.rootPath, 1⟩]).mergeSort repoLE = _
      rw [mergeSort_pair]
      rw [if_neg (by
        simp [repoLE, repoCompare, h12, h21, localeCompare_pos_of_lt _ _ hlt])]

/-- C9 witness: the amended statement at the spec's end-to-end example
(`/repo` before `/repo/sub` in either listing order) and at the
prefix-unrelated pair `/a`, `/b`. -/
theorem c9_amended_pairs_witness :
    strStartsWith demoChildRepo.rootPath demoParentRepo.rootPath = true ∧
    demoParentRepo.rootPath ≠ demoChildRepo.rootPath ∧
    (repoPickItems [demoParentRepo, demoChildRepo] =
       [⟨basename demoParentRepo.rootPath, demoParentRepo.rootPath, 0⟩,
        ⟨basename demoChildRepo.rootPath, demoChildRepo.rootPath, 1⟩] ∧
     repoPickItems [demoChildRepo, demoParentRepo] =
       [⟨basename demoParentRepo.rootPath, demoParentRepo.rootPath, 1⟩,
        ⟨basename demoChildRepo.rootPath, demoChildRepo.rootPath, 0⟩]) ∧
    localeCompare (basename demoARepo.rootPath) (basename demoBRepo.rootPath) < 0 ∧
    (repoPickItems [demoARepo, demoBRepo] =
       [⟨basename demoARepo.rootPath, demoARepo.rootPath, 0⟩,
        ⟨basename demoBRepo.rootPath, demoBRepo.rootPath, 1⟩] ∧
     repoPickItems [demoBRepo, demoARepo] =
       [⟨basename demoARepo.rootPath, demoARepo.rootPath, 1⟩,
        ⟨basename demoBRepo.rootPath, demoBRepo.rootPath, 0⟩]) :=
  ⟨by decide, by decide,
   c9_amended_pairs.1 demoParentRepo demoChildRepo (by decide) (by decide),
   by decide,
   c9_amended_pairs.2 demoARepo demoBRepo (by decide) (by decide) (by decide)⟩

end Tabby
